import Mathlib

/-!
Verification development for the HTTP⇄RPC transcoding gateway generated in
`proto/generated-go/v1/project_service.pb.gw.go` (bytebase `ProjectService`).

The per-route handler functions (`request_*` / `local_request_*`), the declared
query-parameter filters, and the registered route patterns are translated from
that source file.  The grpc-gateway runtime primitives the generated code calls
(`runtime.FieldMaskFromRequestBody`, `runtime.PopulateQueryParameters`,
`runtime.PopulateFieldFromPath`, path-pattern matching, and the JSON marshaler)
are not part of this repository's sources; they are modelled from the
specification, as marked on each such definition.
-/

set_option maxHeartbeats 1000000
set_option linter.unusedVariables false

namespace BBGateway

/-- gRPC status codes used by the gateway's error mapping. -/
inductive Code where
  | invalidArgument
  | notFound
  | alreadyExists
  | permissionDenied
  | unauthenticated
  | resourceExhausted
  | unimplemented
  | internal
deriving DecidableEq, Repr

/-- A typed failure: a status code together with a message, as produced by
`status.Errorf` in the Go source. -/
structure Status where
  code : Code
  msg : String
deriving DecidableEq, Repr

/-- JSON values, used for request bodies. -/
inductive Json where
  | null
  | bool (b : Bool)
  | num (n : Int)
  | str (s : String)
  | arr (elems : List Json)
  | obj (fields : List (String × Json))

/-- Modelled from the spec: the `Project` resource sub-message embedded in the
request messages.  The message type itself is generated code not present under
`src/`; we model the two declared fields the scenarios exercise. -/
structure Project where
  name : String
  title : String
deriving DecidableEq, Repr

/-- An update mask: an ordered list of field paths. -/
structure FieldMask where
  paths : List String
deriving DecidableEq, Repr

/-- Modelled from the spec: `GetProjectRequest` (declared in generated code not
under `src/`); path capture `name` binds onto its `name` field. -/
structure GetProjectRequest where
  name : String
deriving DecidableEq, Repr

/-- Modelled from the spec: `ListProjectsRequest`; all fields bound from query
parameters. -/
structure ListProjectsRequest where
  pageSize : Int
  pageToken : String
  showDeleted : Bool
deriving DecidableEq, Repr

/-- Modelled from the spec: `CreateProjectRequest`; the body decodes onto the
embedded `project` field, remaining fields bindable via query. -/
structure CreateProjectRequest where
  project : Option Project
  projectId : String
deriving DecidableEq, Repr

/-- Modelled from the spec: `UpdateProjectRequest`; the body decodes onto the
embedded `project` field, `updateMask` is derived when absent. -/
structure UpdateProjectRequest where
  project : Option Project
  updateMask : Option FieldMask
deriving DecidableEq, Repr

/-- Modelled from the spec: `DeleteProjectRequest`. -/
structure DeleteProjectRequest where
  name : String
deriving DecidableEq, Repr

/-- Modelled from the spec: `UndeleteProjectRequest`; the body decodes onto the
whole request. -/
structure UndeleteProjectRequest where
  name : String
deriving DecidableEq, Repr

/-- The request body as seen by the gateway: an empty stream (end-of-stream with
zero bytes read), a well-formed JSON document, bytes that fail to decode, or a
stream whose read fails outright. -/
inductive Body where
  | empty
  | json (j : Json)
  | malformed
  | readFail

/-- An inbound HTTP request, reduced to the parts the binding logic consumes:
the (replayable) body stream and the result of `req.ParseForm()` — either a
parse error or the list of query parameters. -/
structure HttpRequest where
  body : Body
  form : Except String (List (String × String))

/-- Decidable equality of gateway results, for evaluating handlers on concrete
inputs. -/
instance instDecEqExcept {ε α : Type} [DecidableEq ε] [DecidableEq α] : DecidableEq (Except ε α) :=
  fun a b =>
    match a, b with
    | .ok a, .ok b =>
      if h : a = b then isTrue (by rw [h]) else isFalse (fun c => by cases c; exact h rfl)
    | .error a, .error b =>
      if h : a = b then isTrue (by rw [h]) else isFalse (fun c => by cases c; exact h rfl)
    | .ok _, .error _ => isFalse (fun c => by cases c)
    | .error _, .ok _ => isFalse (fun c => by cases c)

/-- Path-parameter lookup (`pathParams[...]` map access in the Go source). -/
def lookupParam (pathParams : List (String × String)) (key : String) : Option String :=
  match pathParams with
  | [] => none
  | (k, v) :: rest => if k = key then some v else lookupParam rest key

/-- Split a character list into fields at a separator. -/
def splitFieldAux (sep : Char) : List Char → List Char → List String
  | [], acc => [String.mk acc.reverse]
  | c :: rest, acc =>
    if c = sep then String.mk acc.reverse :: splitFieldAux sep rest []
    else splitFieldAux sep rest (c :: acc)

/-- Split a string into fields at a separator character (used for dotted field
paths and comma-separated mask values). -/
def splitField (sep : Char) (s : String) : List String :=
  splitFieldAux sep s.data []

/-- Value of a hexadecimal digit character. -/
def hexDigitVal (c : Char) : Option Nat :=
  let n := c.toNat
  if 48 ≤ n ∧ n ≤ 57 then some (n - 48)
  else if 97 ≤ n ∧ n ≤ 102 then some (n - 87)
  else if 65 ≤ n ∧ n ≤ 70 then some (n - 55)
  else none

/-- Percent-decoding of a character list: each `%XY` with hex digits X, Y becomes
the character with code 16*X+Y; everything else passes through. -/
def percentDecodeChars : List Char → List Char
  | [] => []
  | '%' :: a :: b :: rest =>
    match hexDigitVal a, hexDigitVal b with
    | some ha, some hb => Char.ofNat (16 * ha + hb) :: percentDecodeChars rest
    | _, _ => '%' :: percentDecodeChars (a :: b :: rest)
  | c :: rest => c :: percentDecodeChars rest

/-- Modelled from the spec: percent-decoding, performed exactly once on each
path segment before matching. -/
def percentDecode (s : String) : String :=
  String.mk (percentDecodeChars s.data)

/-- Modelled from the spec: `runtime.String`, the path-variable converter for
string-typed fields; it returns the raw value and never fails. -/
def runtimeString (val : String) : Except String String :=
  .ok val

/-- Modelled from the spec: `utilities.IOReaderFactory` buffers the request body
so it can be replayed; it fails only if reading the stream fails. -/
def ioReaderFactory : Body → Except String Unit
  | .readFail => .error "failed to read request body"
  | _ => .ok ()

/-- Modelled from the spec: decoding one JSON object field onto the `Project`
message.  Keys that name a declared field require a string value; unknown keys
are ignored. -/
def applyProjectField (p : Project) : String × Json → Except String Project
  | ("name", .str v) => .ok { p with name := v }
  | ("name", _) => .error "invalid value for field name"
  | ("title", .str v) => .ok { p with title := v }
  | ("title", _) => .error "invalid value for field title"
  | _ => .ok p

/-- Fold a JSON object's fields onto a `Project`, stopping at the first error. -/
def decodeProjectFields : Project → List (String × Json) → Except String Project
  | p, [] => .ok p
  | p, kv :: rest =>
    match applyProjectField p kv with
    | .error e => .error e
    | .ok p' => decodeProjectFields p' rest

/-- Modelled from the spec: the marshaler's decode of a JSON document onto the
`Project` message.  Non-objects cannot decode onto a message. -/
def decodeProject : Json → Except String Project
  | .obj fields => decodeProjectFields { name := "", title := "" } fields
  | _ => .error "cannot unmarshal body into message"

/-- The body decode used by Create/Update (`Decode(&protoReq.Project)` in the
source): end-of-stream with zero bytes read (`io.EOF`) is not an error and
leaves the target at its zero value (`nil` pointer, here `none`); any other
decode failure is reported. -/
def decodeProjectBody : Body → Except String (Option Project)
  | .empty => .ok none
  | .json j =>
    match decodeProject j with
    | .ok p => .ok (some p)
    | .error e => .error e
  | .malformed => .error "invalid request body"
  | .readFail => .error "failed to read request body"

/-- Modelled from the spec: decoding one JSON object field onto the
`UndeleteProjectRequest` message. -/
def applyUndeleteField (r : UndeleteProjectRequest) : String × Json → Except String UndeleteProjectRequest
  | ("name", .str v) => .ok { r with name := v }
  | ("name", _) => .error "invalid value for field name"
  | _ => .ok r

/-- Fold a JSON object's fields onto an `UndeleteProjectRequest`. -/
def decodeUndeleteFields : UndeleteProjectRequest → List (String × Json) → Except String UndeleteProjectRequest
  | r, [] => .ok r
  | r, kv :: rest =>
    match applyUndeleteField r kv with
    | .error e => .error e
    | .ok r' => decodeUndeleteFields r' rest

/-- The body decode used by Undelete (`Decode(&protoReq)` in the source): the
whole body decodes onto the request; `io.EOF` with zero bytes read leaves the
zero-valued request and is not an error. -/
def decodeUndeleteBody : Body → Except String UndeleteProjectRequest
  | .empty => .ok { name := "" }
  | .json (.obj fields) => decodeUndeleteFields { name := "" } fields
  | .json _ => .error "cannot unmarshal body into message"
  | .malformed => .error "invalid request body"
  | .readFail => .error "failed to read request body"

/-- Top-level keys of a JSON document (empty unless it is an object). -/
def topLevelKeys : Json → List String
  | .obj fields => fields.map Prod.fst
  | _ => []

/-- Modelled from the spec: the JSON keys declared by the `Project`
sub-message, as modelled here. -/
def projectFieldKeys : List String :=
  ["name", "title"]

/-- Remove duplicates from a list keeping the first occurrence of each element,
threading the set of already-seen elements. -/
def dedupKeepFirstAux : List String → List String → List String
  | [], _ => []
  | k :: rest, seen =>
    if k ∈ seen then dedupKeepFirstAux rest seen
    else k :: dedupKeepFirstAux rest (k :: seen)

/-- Remove duplicates from a list, keeping first occurrences in order. -/
def dedupKeepFirst (l : List String) : List String :=
  dedupKeepFirstAux l []

/-- Modelled from the spec: update-mask derivation walks the top-level JSON keys
of the raw body object and emits one field-path entry per key that corresponds
to a declared field of the target sub-message, in JSON-key order with
duplicates removed; unknown keys are ignored. -/
def fieldMaskFromJsonBody (j : Json) : FieldMask :=
  { paths := dedupKeepFirst ((topLevelKeys j).filter (fun k => decide (k ∈ projectFieldKeys))) }

/-- Modelled from the spec: `runtime.FieldMaskFromRequestBody` re-reads the raw
body; an empty body yields the empty mask (`io.EOF` is tolerated), a JSON body
yields the derived mask, and an unreadable body fails. -/
def fieldMaskFromRequestBody : Body → Except String FieldMask
  | .empty => .ok { paths := [] }
  | .json j => .ok (fieldMaskFromJsonBody j)
  | .malformed => .error "invalid request body"
  | .readFail => .error "failed to read request body"

/-- The update-mask derivation step of the Update handlers (source lines
189–195 / 237–243): if `protoReq.UpdateMask` is `nil` or has zero paths, derive
a mask from the raw request body; otherwise keep the request unchanged. -/
def deriveMaskStep (protoReq : UpdateProjectRequest) (body : Body) : Except Status UpdateProjectRequest :=
  if (match protoReq.updateMask with
      | none => true
      | some m => m.paths.isEmpty) then
    match fieldMaskFromRequestBody body with
    | .error e => .error { code := .invalidArgument, msg := e }
    | .ok fieldMask => .ok { protoReq with updateMask := some fieldMask }
  else
    .ok protoReq

/-- Modelled from the spec: `runtime.PopulateFieldFromPath` for the dotted path
`"project.name"`: traverse the `project` intermediate (creating it at its zero
value if absent) and set its `name` leaf; a string leaf parses any raw value,
so this never fails. -/
def populateFieldProjectName (r : UpdateProjectRequest) (val : String) : Except String UpdateProjectRequest :=
  .ok { r with project := some { (r.project.getD { name := "", title := "" }) with name := val } }

/-- Does `anc` occur as a leading run of `path`? -/
def seqIsAncestor : List String → List String → Bool
  | [], _ => true
  | _ :: _, [] => false
  | a :: as, b :: bs => if a = b then seqIsAncestor as bs else false

/-- Modelled from the spec: the query-parameter filter check
(`DoubleArray.HasCommonPrefix`): a dotted field path is excluded when some
registered path is a leading run of it. -/
def coveredByFilter (filter : List (List String)) (path : List String) : Bool :=
  filter.any (fun f => seqIsAncestor f path)

/-- The declared filter of the ListProjects route (source line 87): no field is
excluded. -/
def filter_ProjectService_ListProjects_0 : List (List String) := []

/-- The declared filter of the CreateProject route (source line 123): the
`project` field is consumed by the body and excluded from query binding.  The
source encodes this set as a double-array trie over the token `project`. -/
def filter_ProjectService_CreateProject_0 : List (List String) :=
  [["project"]]

/-- The declared filter of the UpdateProject route (source line 175): `project`
(consumed by the body) and `project.name` (consumed by the path) are excluded
from query binding.  The source encodes this set as a double-array trie over
the tokens `project` and `name`. -/
def filter_ProjectService_UpdateProject_0 : List (List String) :=
  [["project"], ["project", "name"]]

/-- Digits-only natural number parse, accumulator style. -/
def natOfDigitsAux : List Char → Nat → Option Nat
  | [], acc => some acc
  | c :: rest, acc =>
    if 48 ≤ c.toNat ∧ c.toNat ≤ 57 then natOfDigitsAux rest (acc * 10 + (c.toNat - 48))
    else none

/-- Modelled from the spec: parsing a decimal integer query value; a
non-numeric string into a numeric field is a bind error. -/
def parseDecInt (s : String) : Option Int :=
  match s.data with
  | [] => none
  | '-' :: rest =>
    match rest with
    | [] => none
    | _ => (natOfDigitsAux rest 0).map (fun n => -(n : Int))
  | cs => (natOfDigitsAux cs 0).map (fun n => (n : Int))

/-- Modelled from the spec: parsing a boolean query value. -/
def parseBoolVal (s : String) : Option Bool :=
  if s = "true" then some true
  else if s = "false" then some false
  else none

/-- Modelled from the spec: binding a single query parameter onto a
`ListProjectsRequest`.  Field paths covered by the filter are skipped; unknown
parameters are ignored; a value the field's type cannot parse is an error. -/
def populateQueryParameterListReq (filter : List (List String)) (r : ListProjectsRequest) (key v : String) : Except String ListProjectsRequest :=
  if coveredByFilter filter (splitField '.' key) then .ok r
  else
    match splitField '.' key with
    | ["pageSize"] =>
      match parseDecInt v with
      | some n => .ok { r with pageSize := n }
      | none => .error "type mismatch, parameter: pageSize"
    | ["page_size"] =>
      match parseDecInt v with
      | some n => .ok { r with pageSize := n }
      | none => .error "type mismatch, parameter: page_size"
    | ["pageToken"] => .ok { r with pageToken := v }
    | ["page_token"] => .ok { r with pageToken := v }
    | ["showDeleted"] =>
      match parseBoolVal v with
      | some b => .ok { r with showDeleted := b }
      | none => .error "type mismatch, parameter: showDeleted"
    | ["show_deleted"] =>
      match parseBoolVal v with
      | some b => .ok { r with showDeleted := b }
      | none => .error "type mismatch, parameter: show_deleted"
    | _ => .ok r

/-- Modelled from the spec: `runtime.PopulateQueryParameters` for
`ListProjectsRequest` — bind each query parameter in turn. -/
def populateQueryParametersList (filter : List (List String)) : ListProjectsRequest → List (String × String) → Except String ListProjectsRequest
  | r, [] => .ok r
  | r, (k, v) :: rest =>
    match populateQueryParameterListReq filter r k v with
    | .error e => .error e
    | .ok r' => populateQueryParametersList filter r' rest

/-- Modelled from the spec: binding a single query parameter onto a
`CreateProjectRequest`. -/
def populateQueryParameterCreateReq (filter : List (List String)) (r : CreateProjectRequest) (key v : String) : Except String CreateProjectRequest :=
  if coveredByFilter filter (splitField '.' key) then .ok r
  else
    match splitField '.' key with
    | ["projectId"] => .ok { r with projectId := v }
    | ["project_id"] => .ok { r with projectId := v }
    | ["project", "name"] =>
      .ok { r with project := some { (r.project.getD { name := "", title := "" }) with name := v } }
    | ["project", "title"] =>
      .ok { r with project := some { (r.project.getD { name := "", title := "" }) with title := v } }
    | _ => .ok r

/-- Modelled from the spec: `runtime.PopulateQueryParameters` for
`CreateProjectRequest`. -/
def populateQueryParametersCreate (filter : List (List String)) : CreateProjectRequest → List (String × String) → Except String CreateProjectRequest
  | r, [] => .ok r
  | r, (k, v) :: rest =>
    match populateQueryParameterCreateReq filter r k v with
    | .error e => .error e
    | .ok r' => populateQueryParametersCreate filter r' rest

/-- Modelled from the spec: binding a single query parameter onto an
`UpdateProjectRequest`. -/
def populateQueryParameterUpdateReq (filter : List (List String)) (r : UpdateProjectRequest) (key v : String) : Except String UpdateProjectRequest :=
  if coveredByFilter filter (splitField '.' key) then .ok r
  else
    match splitField '.' key with
    | ["updateMask"] => .ok { r with updateMask := some { paths := splitField ',' v } }
    | ["update_mask"] => .ok { r with updateMask := some { paths := splitField ',' v } }
    | ["project", "name"] =>
      .ok { r with project := some { (r.project.getD { name := "", title := "" }) with name := v } }
    | ["project", "title"] =>
      .ok { r with project := some { (r.project.getD { name := "", title := "" }) with title := v } }
    | _ => .ok r

/-- Modelled from the spec: `runtime.PopulateQueryParameters` for
`UpdateProjectRequest`. -/
def populateQueryParametersUpdate (filter : List (List String)) : UpdateProjectRequest → List (String × String) → Except String UpdateProjectRequest
  | r, [] => .ok r
  | r, (k, v) :: rest =>
    match populateQueryParameterUpdateReq filter r k v with
    | .error e => .error e
    | .ok r' => populateQueryParametersUpdate filter r' rest

/-! ## Per-route handler functions

Each `request_*` function is translated from the corresponding function in the
source; each `local_request_*` function is translated from its duplicated
`local_request_*` counterpart.  The bound service operation (the gRPC client
stub resp. the in-process server) is abstracted as a function from the typed
request to a typed result; the transport metadata carried alongside responses
is not modelled. -/

/-- Translated from `request_ProjectService_GetProject_0` (source lines 34–58). -/
def request_ProjectService_GetProject_0 {μ : Type} (client : GetProjectRequest → Except Status μ)
    (req : HttpRequest) (pathParams : List (String × String)) : Except Status μ :=
  match lookupParam pathParams "name" with
  | none => .error { code := .invalidArgument, msg := "missing parameter name" }
  | some val =>
    match runtimeString val with
    | .error _ => .error { code := .invalidArgument, msg := "type mismatch, parameter: name" }
    | .ok v => client { name := v }

/-- Translated from `local_request_ProjectService_GetProject_0` (source lines 60–84). -/
def local_request_ProjectService_GetProject_0 {μ : Type} (server : GetProjectRequest → Except Status μ)
    (req : HttpRequest) (pathParams : List (String × String)) : Except Status μ :=
  match lookupParam pathParams "name" with
  | none => .error { code := .invalidArgument, msg := "missing parameter name" }
  | some val =>
    match runtimeString val with
    | .error _ => .error { code := .invalidArgument, msg := "type mismatch, parameter: name" }
    | .ok v => server { name := v }

/-- Translated from `request_ProjectService_ListProjects_0` (source lines 90–104). -/
def request_ProjectService_ListProjects_0 {μ : Type} (client : ListProjectsRequest → Except Status μ)
    (req : HttpRequest) (pathParams : List (String × String)) : Except Status μ :=
  match req.form with
  | .error e => .error { code := .invalidArgument, msg := e }
  | .ok form =>
    match populateQueryParametersList filter_ProjectService_ListProjects_0
        { pageSize := 0, pageToken := "", showDeleted := false } form with
    | .error e => .error { code := .invalidArgument, msg := e }
    | .ok protoReq => client protoReq

/-- Translated from `local_request_ProjectService_ListProjects_0` (source lines 106–120). -/
def local_request_ProjectService_ListProjects_0 {μ : Type} (server : ListProjectsRequest → Except Status μ)
    (req : HttpRequest) (pathParams : List (String × String)) : Except Status μ :=
  match req.form with
  | .error e => .error { code := .invalidArgument, msg := e }
  | .ok form =>
    match populateQueryParametersList filter_ProjectService_ListProjects_0
        { pageSize := 0, pageToken := "", showDeleted := false } form with
    | .error e => .error { code := .invalidArgument, msg := e }
    | .ok protoReq => server protoReq

/-- Translated from `request_ProjectService_CreateProject_0` (source lines 126–148). -/
def request_ProjectService_CreateProject_0 {μ : Type} (client : CreateProjectRequest → Except Status μ)
    (req : HttpRequest) (pathParams : List (String × String)) : Except Status μ :=
  match ioReaderFactory req.body with
  | .error berr => .error { code := .invalidArgument, msg := berr }
  | .ok _ =>
    match decodeProjectBody req.body with
    | .error e => .error { code := .invalidArgument, msg := e }
    | .ok proj =>
      match req.form with
      | .error e => .error { code := .invalidArgument, msg := e }
      | .ok form =>
        match populateQueryParametersCreate filter_ProjectService_CreateProject_0
            { project := proj, projectId := "" } form with
        | .error e => .error { code := .invalidArgument, msg := e }
        | .ok protoReq => client protoReq

/-- Translated from `local_request_ProjectService_CreateProject_0` (source lines 150–172). -/
def local_request_ProjectService_CreateProject_0 {μ : Type} (server : CreateProjectRequest → Except Status μ)
    (req : HttpRequest) (pathParams : List (String × String)) : Except Status μ :=
  match ioReaderFactory req.body with
  | .error berr => .error { code := .invalidArgument, msg := berr }
  | .ok _ =>
    match decodeProjectBody req.body with
    | .error e => .error { code := .invalidArgument, msg := e }
    | .ok proj =>
      match req.form with
      | .error e => .error { code := .invalidArgument, msg := e }
      | .ok form =>
        match populateQueryParametersCreate filter_ProjectService_CreateProject_0
            { project := proj, projectId := "" } form with
        | .error e => .error { code := .invalidArgument, msg := e }
        | .ok protoReq => server protoReq

/-- Translated from `request_ProjectService_UpdateProject_0` (source lines 178–224): body
decode onto `protoReq.Project`, update-mask derivation, path binding of
`project.name`, then query binding, then the client call. -/
def request_ProjectService_UpdateProject_0 {μ : Type} (client : UpdateProjectRequest → Except Status μ)
    (req : HttpRequest) (pathParams : List (String × String)) : Except Status μ :=
  match ioReaderFactory req.body with
  | .error berr => .error { code := .invalidArgument, msg := berr }
  | .ok _ =>
    match decodeProjectBody req.body with
    | .error e => .error { code := .invalidArgument, msg := e }
    | .ok proj =>
      match deriveMaskStep { project := proj, updateMask := none } req.body with
      | .error e => .error e
      | .ok protoReq =>
        match lookupParam pathParams "project.name" with
        | none => .error { code := .invalidArgument, msg := "missing parameter project.name" }
        | some val =>
          match populateFieldProjectName protoReq val with
          | .error _ => .error { code := .invalidArgument, msg := "type mismatch, parameter: project.name" }
          | .ok protoReq2 =>
            match req.form with
            | .error e => .error { code := .invalidArgument, msg := e }
            | .ok form =>
              match populateQueryParametersUpdate filter_ProjectService_UpdateProject_0 protoReq2 form with
              | .error e => .error { code := .invalidArgument, msg := e }
              | .ok protoReq3 => client protoReq3

/-- Translated from `local_request_ProjectService_UpdateProject_0` (source lines 226–272). -/
def local_request_ProjectService_UpdateProject_0 {μ : Type} (server : UpdateProjectRequest → Except Status μ)
    (req : HttpRequest) (pathParams : List (String × String)) : Except Status μ :=
  match ioReaderFactory req.body with
  | .error berr => .error { code := .invalidArgument, msg := berr }
  | .ok _ =>
    match decodeProjectBody req.body with
    | .error e => .error { code := .invalidArgument, msg := e }
    | .ok proj =>
      match deriveMaskStep { project := proj, updateMask := none } req.body with
      | .error e => .error e
      | .ok protoReq =>
        match lookupParam pathParams "project.name" with
        | none => .error { code := .invalidArgument, msg := "missing parameter project.name" }
        | some val =>
          match populateFieldProjectName protoReq val with
          | .error _ => .error { code := .invalidArgument, msg := "type mismatch, parameter: project.name" }
          | .ok protoReq2 =>
            match req.form with
            | .error e => .error { code := .invalidArgument, msg := e }
            | .ok form =>
              match populateQueryParametersUpdate filter_ProjectService_UpdateProject_0 protoReq2 form with
              | .error e => .error { code := .invalidArgument, msg := e }
              | .ok protoReq3 => server protoReq3

/-- Translated from `request_ProjectService_DeleteProject_0` (source lines 274–298). -/
def request_ProjectService_DeleteProject_0 {μ : Type} (client : DeleteProjectRequest → Except Status μ)
    (req : HttpRequest) (pathParams : List (String × String)) : Except Status μ :=
  match lookupParam pathParams "name" with
  | none => .error { code := .invalidArgument, msg := "missing parameter name" }
  | some val =>
    match runtimeString val with
    | .error _ => .error { code := .invalidArgument, msg := "type mismatch, parameter: name" }
    | .ok v => client { name := v }

/-- Translated from `local_request_ProjectService_DeleteProject_0` (source lines 300–324). -/
def local_request_ProjectService_DeleteProject_0 {μ : Type} (server : DeleteProjectRequest → Except Status μ)
    (req : HttpRequest) (pathParams : List (String × String)) : Except Status μ :=
  match lookupParam pathParams "name" with
  | none => .error { code := .invalidArgument, msg := "missing parameter name" }
  | some val =>
    match runtimeString val with
    | .error _ => .error { code := .invalidArgument, msg := "type mismatch, parameter: name" }
    | .ok v => server { name := v }

/-- Translated from `request_ProjectService_UndeleteProject_0` (source lines 326–358): the body
decodes onto the whole request, then the path capture `name` is bound. -/
def request_ProjectService_UndeleteProject_0 {μ : Type} (client : UndeleteProjectRequest → Except Status μ)
    (req : HttpRequest) (pathParams : List (String × String)) : Except Status μ :=
  match ioReaderFactory req.body with
  | .error berr => .error { code := .invalidArgument, msg := berr }
  | .ok _ =>
    match decodeUndeleteBody req.body with
    | .error e => .error { code := .invalidArgument, msg := e }
    | .ok protoReq =>
      match lookupParam pathParams "name" with
      | none => .error { code := .invalidArgument, msg := "missing parameter name" }
      | some val =>
        match runtimeString val with
        | .error _ => .error { code := .invalidArgument, msg := "type mismatch, parameter: name" }
        | .ok v => client { protoReq with name := v }

/-- Translated from `local_request_ProjectService_UndeleteProject_0` (source lines 360–392). -/
def local_request_ProjectService_UndeleteProject_0 {μ : Type} (server : UndeleteProjectRequest → Except Status μ)
    (req : HttpRequest) (pathParams : List (String × String)) : Except Status μ :=
  match ioReaderFactory req.body with
  | .error berr => .error { code := .invalidArgument, msg := berr }
  | .ok _ =>
    match decodeUndeleteBody req.body with
    | .error e => .error { code := .invalidArgument, msg := e }
    | .ok protoReq =>
      match lookupParam pathParams "name" with
      | none => .error { code := .invalidArgument, msg := "missing parameter name" }
      | some val =>
        match runtimeString val with
        | .error _ => .error { code := .invalidArgument, msg := "type mismatch, parameter: name" }
        | .ok v => server { protoReq with name := v }

/-! ## Binding steps, individually

The binding work of each handler, split into the steps named by the
specification (body decode, update-mask derivation, path-variable binding,
query-parameter binding).  Each step is the corresponding slice of the handler
code above. -/

/-- Update route, step 1: body decode onto `protoReq.Project`. -/
def updateBodyDecodeStep (req : HttpRequest) : Except Status UpdateProjectRequest :=
  match ioReaderFactory req.body with
  | .error berr => .error { code := .invalidArgument, msg := berr }
  | .ok _ =>
    match decodeProjectBody req.body with
    | .error e => .error { code := .invalidArgument, msg := e }
    | .ok proj => .ok { project := proj, updateMask := none }

/-- Update route, step 2: update-mask derivation from the raw body. -/
def updateMaskDeriveStep (req : HttpRequest) (r : UpdateProjectRequest) : Except Status UpdateProjectRequest :=
  deriveMaskStep r req.body

/-- Update route, step 3: binding the `project.name` path capture. -/
def updatePathBindStep (pathParams : List (String × String)) (r : UpdateProjectRequest) : Except Status UpdateProjectRequest :=
  match lookupParam pathParams "project.name" with
  | none => .error { code := .invalidArgument, msg := "missing parameter project.name" }
  | some val =>
    match populateFieldProjectName r val with
    | .error _ => .error { code := .invalidArgument, msg := "type mismatch, parameter: project.name" }
    | .ok r2 => .ok r2

/-- Update route, step 4: query-parameter binding through the route's filter. -/
def updateQueryBindStep (req : HttpRequest) (r : UpdateProjectRequest) : Except Status UpdateProjectRequest :=
  match req.form with
  | .error e => .error { code := .invalidArgument, msg := e }
  | .ok form =>
    match populateQueryParametersUpdate filter_ProjectService_UpdateProject_0 r form with
    | .error e => .error { code := .invalidArgument, msg := e }
    | .ok r2 => .ok r2

/-- Create route, step 1: body decode onto `protoReq.Project`. -/
def createBodyDecodeStep (req : HttpRequest) : Except Status CreateProjectRequest :=
  match ioReaderFactory req.body with
  | .error berr => .error { code := .invalidArgument, msg := berr }
  | .ok _ =>
    match decodeProjectBody req.body with
    | .error e => .error { code := .invalidArgument, msg := e }
    | .ok proj => .ok { project := proj, projectId := "" }

/-- Create route, step 2: query-parameter binding through the route's filter. -/
def createQueryBindStep (req : HttpRequest) (r : CreateProjectRequest) : Except Status CreateProjectRequest :=
  match req.form with
  | .error e => .error { code := .invalidArgument, msg := e }
  | .ok form =>
    match populateQueryParametersCreate filter_ProjectService_CreateProject_0 r form with
    | .error e => .error { code := .invalidArgument, msg := e }
    | .ok r2 => .ok r2

/-- Undelete route, step 1: body decode onto the whole request. -/
def undeleteBodyDecodeStep (req : HttpRequest) : Except Status UndeleteProjectRequest :=
  match ioReaderFactory req.body with
  | .error berr => .error { code := .invalidArgument, msg := berr }
  | .ok _ =>
    match decodeUndeleteBody req.body with
    | .error e => .error { code := .invalidArgument, msg := e }
    | .ok protoReq => .ok protoReq

/-- Undelete route, step 2: binding the `name` path capture. -/
def undeletePathBindStep (pathParams : List (String × String)) (r : UndeleteProjectRequest) : Except Status UndeleteProjectRequest :=
  match lookupParam pathParams "name" with
  | none => .error { code := .invalidArgument, msg := "missing parameter name" }
  | some val =>
    match runtimeString val with
    | .error _ => .error { code := .invalidArgument, msg := "type mismatch, parameter: name" }
    | .ok v => .ok { r with name := v }

/-- Get route, single step: binding the `name` path capture. -/
def getPathBindStep (pathParams : List (String × String)) : Except Status GetProjectRequest :=
  match lookupParam pathParams "name" with
  | none => .error { code := .invalidArgument, msg := "missing parameter name" }
  | some val =>
    match runtimeString val with
    | .error _ => .error { code := .invalidArgument, msg := "type mismatch, parameter: name" }
    | .ok v => .ok { name := v }

/-- Delete route, single step: binding the `name` path capture. -/
def deletePathBindStep (pathParams : List (String × String)) : Except Status DeleteProjectRequest :=
  match lookupParam pathParams "name" with
  | none => .error { code := .invalidArgument, msg := "missing parameter name" }
  | some val =>
    match runtimeString val with
    | .error _ => .error { code := .invalidArgument, msg := "type mismatch, parameter: name" }
    | .ok v => .ok { name := v }

/-- List route, single step: query-parameter binding. -/
def listQueryBindStep (req : HttpRequest) : Except Status ListProjectsRequest :=
  match req.form with
  | .error e => .error { code := .invalidArgument, msg := e }
  | .ok form =>
    match populateQueryParametersList filter_ProjectService_ListProjects_0
        { pageSize := 0, pageToken := "", showDeleted := false } form with
    | .error e => .error { code := .invalidArgument, msg := e }
    | .ok r => .ok r

/-! ## Route patterns and the path matcher

The registered patterns are translated from the `runtime.MustPattern`
declarations at source lines 726–738 (op-codes over the literal pool
`["v1", "projects", <field>]`, with verb `"undelete"` on the Undelete route).
The matcher itself lives in the grpc-gateway runtime and is modelled from the
specification. -/

/-- One element of a capture's sub-template: a literal segment or a
single-segment wildcard `*`. -/
inductive CapSeg where
  | litSeg (s : String)
  | star
deriving DecidableEq

/-- One component of a compiled route pattern: a literal segment or a named
capture over a sub-template. -/
inductive PatComp where
  | lit (s : String)
  | capture (field : String) (parts : List CapSeg)

/-- A compiled route pattern: components plus an optional trailing verb. -/
structure Pattern where
  comps : List PatComp
  verb : Option String

/-- Modelled from the spec: consume the segments matched by a capture's
sub-template, returning the decoded values consumed and the remaining
segments.  Literal sub-segments must match the decoded segment; `*` consumes
any one segment.  Matching is against the decoded path: each raw segment is
percent-decoded exactly once. -/
def capConsume : List CapSeg → List String → Option (List String × List String)
  | [], segs => some ([], segs)
  | CapSeg.litSeg s :: ps, seg :: segs =>
    if percentDecode seg = s then
      match capConsume ps segs with
      | some (vals, rest) => some (percentDecode seg :: vals, rest)
      | none => none
    else none
  | CapSeg.star :: ps, seg :: segs =>
    match capConsume ps segs with
    | some (vals, rest) => some (percentDecode seg :: vals, rest)
    | none => none
  | _ :: _, [] => none

/-- Join path segments with `/` (the captured value of a multi-segment
capture). -/
def joinSegs : List String → String
  | [] => ""
  | [s] => s
  | s :: rest => s ++ "/" ++ joinSegs rest

/-- Modelled from the spec: anchored matching of pattern components against the
path's segments; a literal must equal the decoded segment, a capture consumes
its sub-template and records the joined decoded value under its field name. -/
def matchComps : List PatComp → List String → Option (List (String × String))
  | [], [] => some []
  | [], _ :: _ => none
  | PatComp.lit s :: ps, seg :: segs =>
    if percentDecode seg = s then matchComps ps segs else none
  | PatComp.lit _ :: _, [] => none
  | PatComp.capture f parts :: ps, segs =>
    match capConsume parts segs with
    | some (vals, rest) =>
      match matchComps ps rest with
      | some caps => some ((f, joinSegs vals) :: caps)
      | none => none
    | none => none

/-- Modelled from the spec: `match(P, p)` — the optional `:verb` suffix must
agree with the template's, and the whole segment list must match the
components. -/
def matchPattern (p : Pattern) (segs : List String) (verb : Option String) : Option (List (String × String)) :=
  if p.verb = verb then matchComps p.comps segs else none

/-- Translated from `pattern_ProjectService_GetProject_0` (source line 727):
`/v1/{name=projects/*}`. -/
def pattern_ProjectService_GetProject_0 : Pattern :=
  { comps := [.lit "v1", .capture "name" [.litSeg "projects", .star]], verb := none }

/-- Translated from `pattern_ProjectService_ListProjects_0` (source line 729): `/v1/projects`. -/
def pattern_ProjectService_ListProjects_0 : Pattern :=
  { comps := [.lit "v1", .lit "projects"], verb := none }

/-- Translated from `pattern_ProjectService_CreateProject_0` (source line 731): `/v1/projects`. -/
def pattern_ProjectService_CreateProject_0 : Pattern :=
  { comps := [.lit "v1", .lit "projects"], verb := none }

/-- Translated from `pattern_ProjectService_UpdateProject_0` (source line 733):
`/v1/{project.name=projects/*}`. -/
def pattern_ProjectService_UpdateProject_0 : Pattern :=
  { comps := [.lit "v1", .capture "project.name" [.litSeg "projects", .star]], verb := none }

/-- Translated from `pattern_ProjectService_DeleteProject_0` (source line 735):
`/v1/{name=projects/*}`. -/
def pattern_ProjectService_DeleteProject_0 : Pattern :=
  { comps := [.lit "v1", .capture "name" [.litSeg "projects", .star]], verb := none }

/-- Translated from `pattern_ProjectService_UndeleteProject_0` (source line 737):
`/v1/{name=projects/*}:undelete`. -/
def pattern_ProjectService_UndeleteProject_0 : Pattern :=
  { comps := [.lit "v1", .capture "name" [.litSeg "projects", .star]], verb := some "undelete" }

/-! ## Binding pipelines and the local/remote dichotomy predicate -/

/-- The complete binding pipeline of the Update route: body decode, then
update-mask derivation, then path binding, then query binding. -/
def updateBinding (req : HttpRequest) (pathParams : List (String × String)) : Except Status UpdateProjectRequest :=
  (((updateBodyDecodeStep req).bind (updateMaskDeriveStep req)).bind (updatePathBindStep pathParams)).bind (updateQueryBindStep req)

/-- The complete binding pipeline of the Create route: body decode, then query
binding. -/
def createBinding (req : HttpRequest) : Except Status CreateProjectRequest :=
  (createBodyDecodeStep req).bind (createQueryBindStep req)

/-- The complete binding pipeline of the Undelete route: body decode, then
path binding. -/
def undeleteBinding (req : HttpRequest) (pathParams : List (String × String)) : Except Status UndeleteProjectRequest :=
  (undeleteBodyDecodeStep req).bind (undeletePathBindStep pathParams)

/-- The property that a route handler either fails locally with an
`InvalidArgument` status, identically for every bound service operation (so
the service is never invoked), or hands some bound request to the service and
returns the service's result unchanged. -/
def handlerDichotomy {ρ : Type} (h : {μ : Type} → (ρ → Except Status μ) → HttpRequest → List (String × String) → Except Status μ) : Prop :=
  ∀ req pathParams,
    (∃ e, e.code = Code.invalidArgument ∧
      ∀ (μ : Type) (svc : ρ → Except Status μ), h svc req pathParams = .error e) ∨
    (∃ r, ∀ (μ : Type) (svc : ρ → Except Status μ), h svc req pathParams = svc r)

/-! ## Helper lemmas -/

theorem bindErrorElim {α β : Type} {x : Except Status α} {f : α → Except Status β} {e : Status}
    (h : x.bind f = .error e) : x = .error e ∨ ∃ a, x = .ok a ∧ f a = .error e := by
  cases x with
  | error e0 =>
    left
    simpa [Except.bind] using h
  | ok a =>
    right
    exact ⟨a, rfl, by simpa [Except.bind] using h⟩

theorem lem_get_decomp {μ : Type} (svc : GetProjectRequest → Except Status μ)
    (req : HttpRequest) (pp : List (String × String)) :
    request_ProjectService_GetProject_0 svc req pp = (getPathBindStep pp).bind svc := by
  unfold request_ProjectService_GetProject_0 getPathBindStep
  cases lookupParam pp "name" with
  | none => rfl
  | some val => rfl

theorem lem_delete_decomp {μ : Type} (svc : DeleteProjectRequest → Except Status μ)
    (req : HttpRequest) (pp : List (String × String)) :
    request_ProjectService_DeleteProject_0 svc req pp = (deletePathBindStep pp).bind svc := by
  unfold request_ProjectService_DeleteProject_0 deletePathBindStep
  cases lookupParam pp "name" with
  | none => rfl
  | some val => rfl

theorem lem_list_decomp {μ : Type} (svc : ListProjectsRequest → Except Status μ)
    (req : HttpRequest) (pp : List (String × String)) :
    request_ProjectService_ListProjects_0 svc req pp = (listQueryBindStep req).bind svc := by
  unfold request_ProjectService_ListProjects_0 listQueryBindStep
  cases req.form with
  | error e => rfl
  | ok form =>
    dsimp only [Except.bind]
    cases populateQueryParametersList filter_ProjectService_ListProjects_0
        { pageSize := 0, pageToken := "", showDeleted := false } form with
    | error e => rfl
    | ok r => rfl

theorem lem_create_decomp {μ : Type} (svc : CreateProjectRequest → Except Status μ)
    (req : HttpRequest) (pp : List (String × String)) :
    request_ProjectService_CreateProject_0 svc req pp = (createBinding req).bind svc := by
  unfold request_ProjectService_CreateProject_0 createBinding createBodyDecodeStep createQueryBindStep
  cases ioReaderFactory req.body with
  | error e => rfl
  | ok u =>
    dsimp only [Except.bind]
    cases decodeProjectBody req.body with
    | error e => rfl
    | ok proj =>
      dsimp only [Except.bind]
      cases req.form with
      | error e => rfl
      | ok form =>
        dsimp only [Except.bind]
        cases populateQueryParametersCreate filter_ProjectService_CreateProject_0
            { project := proj, projectId := "" } form with
        | error e => rfl
        | ok r => rfl

theorem lem_undelete_decomp {μ : Type} (svc : UndeleteProjectRequest → Except Status μ)
    (req : HttpRequest) (pp : List (String × String)) :
    request_ProjectService_UndeleteProject_0 svc req pp = (undeleteBinding req pp).bind svc := by
  unfold request_ProjectService_UndeleteProject_0 undeleteBinding undeleteBodyDecodeStep undeletePathBindStep
  cases ioReaderFactory req.body with
  | error e => rfl
  | ok u =>
    dsimp only [Except.bind]
    cases decodeUndeleteBody req.body with
    | error e => rfl
    | ok r0 =>
      dsimp only [Except.bind]
      cases lookupParam pp "name" with
      | none => rfl
      | some val => rfl

theorem lem_update_decomp {μ : Type} (svc : UpdateProjectRequest → Except Status μ)
    (req : HttpRequest) (pp : List (String × String)) :
    request_ProjectService_UpdateProject_0 svc req pp = (updateBinding req pp).bind svc := by
  unfold request_ProjectService_UpdateProject_0 updateBinding updateBodyDecodeStep
    updateMaskDeriveStep updatePathBindStep updateQueryBindStep
  cases ioReaderFactory req.body with
  | error e => rfl
  | ok u =>
    dsimp only [Except.bind]
    cases decodeProjectBody req.body with
    | error e => rfl
    | ok proj =>
      dsimp only [Except.bind]
      cases deriveMaskStep { project := proj, updateMask := none } req.body with
      | error e => rfl
      | ok r1 =>
        dsimp only [Except.bind]
        cases lookupParam pp "project.name" with
        | none => rfl
        | some val =>
          dsimp only [Except.bind, populateFieldProjectName]
          cases req.form with
          | error e => rfl
          | ok form =>
            dsimp only [Except.bind]
            cases populateQueryParametersUpdate filter_ProjectService_UpdateProject_0
                { r1 with project := some { (r1.project.getD { name := "", title := "" }) with name := val } } form with
            | error e => rfl
            | ok r3 => rfl

theorem lem_updateBodyDecodeStep_err {req : HttpRequest} {e : Status}
    (h : updateBodyDecodeStep req = .error e) : e.code = Code.invalidArgument := by
  unfold updateBodyDecodeStep at h
  repeat' split at h
  all_goals try simp at h
  all_goals try subst h
  all_goals simp

theorem lem_deriveMaskStep_err {r : UpdateProjectRequest} {b : Body} {e : Status}
    (h : deriveMaskStep r b = .error e) : e.code = Code.invalidArgument := by
  unfold deriveMaskStep at h
  repeat' split at h
  all_goals try simp at h
  all_goals try subst h
  all_goals simp

theorem lem_updatePathBindStep_err {pp : List (String × String)} {r : UpdateProjectRequest} {e : Status}
    (h : updatePathBindStep pp r = .error e) : e.code = Code.invalidArgument := by
  unfold updatePathBindStep at h
  repeat' split at h
  all_goals try simp at h
  all_goals try subst h
  all_goals simp

theorem lem_updateQueryBindStep_err {req : HttpRequest} {r : UpdateProjectRequest} {e : Status}
    (h : updateQueryBindStep req r = .error e) : e.code = Code.invalidArgument := by
  unfold updateQueryBindStep at h
  repeat' split at h
  all_goals try simp at h
  all_goals try subst h
  all_goals simp

theorem lem_createBodyDecodeStep_err {req : HttpRequest} {e : Status}
    (h : createBodyDecodeStep req = .error e) : e.code = Code.invalidArgument := by
  unfold createBodyDecodeStep at h
  repeat' split at h
  all_goals try simp at h
  all_goals try subst h
  all_goals simp

theorem lem_createQueryBindStep_err {req : HttpRequest} {r : CreateProjectRequest} {e : Status}
    (h : createQueryBindStep req r = .error e) : e.code = Code.invalidArgument := by
  unfold createQueryBindStep at h
  repeat' split at h
  all_goals try simp at h
  all_goals try subst h
  all_goals simp

theorem lem_undeleteBodyDecodeStep_err {req : HttpRequest} {e : Status}
    (h : undeleteBodyDecodeStep req = .error e) : e.code = Code.invalidArgument := by
  unfold undeleteBodyDecodeStep at h
  repeat' split at h
  all_goals try simp at h
  all_goals try subst h
  all_goals simp

theorem lem_undeletePathBindStep_err {pp : List (String × String)} {r : UndeleteProjectRequest} {e : Status}
    (h : undeletePathBindStep pp r = .error e) : e.code = Code.invalidArgument := by
  unfold undeletePathBindStep at h
  repeat' split at h
  all_goals try simp at h
  all_goals try subst h
  all_goals simp

theorem lem_getPathBindStep_err {pp : List (String × String)} {e : Status}
    (h : getPathBindStep pp = .error e) : e.code = Code.invalidArgument := by
  unfold getPathBindStep at h
  repeat' split at h
  all_goals try simp at h
  all_goals try subst h
  all_goals simp

theorem lem_deletePathBindStep_err {pp : List (String × String)} {e : Status}
    (h : deletePathBindStep pp = .error e) : e.code = Code.invalidArgument := by
  unfold deletePathBindStep at h
  repeat' split at h
  all_goals try simp at h
  all_goals try subst h
  all_goals simp

theorem lem_listQueryBindStep_err {req : HttpRequest} {e : Status}
    (h : listQueryBindStep req = .error e) : e.code = Code.invalidArgument := by
  unfold listQueryBindStep at h
  repeat' split at h
  all_goals try simp at h
  all_goals try subst h
  all_goals simp

theorem lem_updateBinding_err {req : HttpRequest} {pp : List (String × String)} {e : Status}
    (h : updateBinding req pp = .error e) : e.code = Code.invalidArgument := by
  rcases bindErrorElim h with h1 | ⟨a, _, h2⟩
  · rcases bindErrorElim h1 with h3 | ⟨b, _, h4⟩
    · rcases bindErrorElim h3 with h5 | ⟨c, _, h6⟩
      · exact lem_updateBodyDecodeStep_err h5
      · exact lem_deriveMaskStep_err h6
    · exact lem_updatePathBindStep_err h4
  · exact lem_updateQueryBindStep_err h2

theorem lem_createBinding_err {req : HttpRequest} {e : Status}
    (h : createBinding req = .error e) : e.code = Code.invalidArgument := by
  rcases bindErrorElim h with h1 | ⟨a, _, h2⟩
  · exact lem_createBodyDecodeStep_err h1
  · exact lem_createQueryBindStep_err h2

theorem lem_undeleteBinding_err {req : HttpRequest} {pp : List (String × String)} {e : Status}
    (h : undeleteBinding req pp = .error e) : e.code = Code.invalidArgument := by
  rcases bindErrorElim h with h1 | ⟨a, _, h2⟩
  · exact lem_undeleteBodyDecodeStep_err h1
  · exact lem_undeletePathBindStep_err h2

theorem lem_get_dichotomy : handlerDichotomy (ρ := GetProjectRequest) @request_ProjectService_GetProject_0 := by
  intro req pp
  cases hb : getPathBindStep pp with
  | error e =>
    exact Or.inl ⟨e, lem_getPathBindStep_err hb, fun μ svc => by rw [lem_get_decomp, hb]; rfl⟩
  | ok r =>
    exact Or.inr ⟨r, fun μ svc => by rw [lem_get_decomp, hb]; rfl⟩

theorem lem_delete_dichotomy : handlerDichotomy (ρ := DeleteProjectRequest) @request_ProjectService_DeleteProject_0 := by
  intro req pp
  cases hb : deletePathBindStep pp with
  | error e =>
    exact Or.inl ⟨e, lem_deletePathBindStep_err hb, fun μ svc => by rw [lem_delete_decomp, hb]; rfl⟩
  | ok r =>
    exact Or.inr ⟨r, fun μ svc => by rw [lem_delete_decomp, hb]; rfl⟩

theorem lem_list_dichotomy : handlerDichotomy (ρ := ListProjectsRequest) @request_ProjectService_ListProjects_0 := by
  intro req pp
  cases hb : listQueryBindStep req with
  | error e =>
    exact Or.inl ⟨e, lem_listQueryBindStep_err hb, fun μ svc => by rw [lem_list_decomp, hb]; rfl⟩
  | ok r =>
    exact Or.inr ⟨r, fun μ svc => by rw [lem_list_decomp, hb]; rfl⟩

theorem lem_create_dichotomy : handlerDichotomy (ρ := CreateProjectRequest) @request_ProjectService_CreateProject_0 := by
  intro req pp
  cases hb : createBinding req with
  | error e =>
    exact Or.inl ⟨e, lem_createBinding_err hb, fun μ svc => by rw [lem_create_decomp, hb]; rfl⟩
  | ok r =>
    exact Or.inr ⟨r, fun μ svc => by rw [lem_create_decomp, hb]; rfl⟩

theorem lem_update_dichotomy : handlerDichotomy (ρ := UpdateProjectRequest) @request_ProjectService_UpdateProject_0 := by
  intro req pp
  cases hb : updateBinding req pp with
  | error e =>
    exact Or.inl ⟨e, lem_updateBinding_err hb, fun μ svc => by rw [lem_update_decomp, hb]; rfl⟩
  | ok r =>
    exact Or.inr ⟨r, fun μ svc => by rw [lem_update_decomp, hb]; rfl⟩

theorem lem_undelete_dichotomy : handlerDichotomy (ρ := UndeleteProjectRequest) @request_ProjectService_UndeleteProject_0 := by
  intro req pp
  cases hb : undeleteBinding req pp with
  | error e =>
    exact Or.inl ⟨e, lem_undeleteBinding_err hb, fun μ svc => by rw [lem_undelete_decomp, hb]; rfl⟩
  | ok r =>
    exact Or.inr ⟨r, fun μ svc => by rw [lem_undelete_decomp, hb]; rfl⟩

/-! ## Claim theorems -/

/-- C5: For every route and every inbound request, either some binding or
decoding step fails — then the handler returns a failure whose kind is
`InvalidArgument`, identically for every bound service operation, so the
service (client or server method) is never invoked — or binding succeeds and
the handler returns the service operation's result unchanged, so a
service-reported failure passes through to the encoder unchanged.  This holds
for the `request_*` (remote) and `local_request_*` (in-process) handlers of
all six routes. -/
theorem c5_binding_failures_are_invalid_argument_and_service_failures_pass_through :
    handlerDichotomy (ρ := GetProjectRequest) @request_ProjectService_GetProject_0 ∧
    handlerDichotomy (ρ := GetProjectRequest) @local_request_ProjectService_GetProject_0 ∧
    handlerDichotomy (ρ := ListProjectsRequest) @request_ProjectService_ListProjects_0 ∧
    handlerDichotomy (ρ := ListProjectsRequest) @local_request_ProjectService_ListProjects_0 ∧
    handlerDichotomy (ρ := CreateProjectRequest) @request_ProjectService_CreateProject_0 ∧
    handlerDichotomy (ρ := CreateProjectRequest) @local_request_ProjectService_CreateProject_0 ∧
    handlerDichotomy (ρ := UpdateProjectRequest) @request_ProjectService_UpdateProject_0 ∧
    handlerDichotomy (ρ := UpdateProjectRequest) @local_request_ProjectService_UpdateProject_0 ∧
    handlerDichotomy (ρ := DeleteProjectRequest) @request_ProjectService_DeleteProject_0 ∧
    handlerDichotomy (ρ := DeleteProjectRequest) @local_request_ProjectService_DeleteProject_0 ∧
    handlerDichotomy (ρ := UndeleteProjectRequest) @request_ProjectService_UndeleteProject_0 ∧
    handlerDichotomy (ρ := UndeleteProjectRequest) @local_request_ProjectService_UndeleteProject_0 :=
  ⟨lem_get_dichotomy, lem_get_dichotomy, lem_list_dichotomy, lem_list_dichotomy,
   lem_create_dichotomy, lem_create_dichotomy, lem_update_dichotomy, lem_update_dichotomy,
   lem_delete_dichotomy, lem_delete_dichotomy, lem_undelete_dichotomy, lem_undelete_dichotomy⟩

/-- C6: For every route, the remote-mode handler (`request_*`) and the
in-process handler (`local_request_*`) use identical binding logic: applied to
the same abstract service operation, the same HTTP request and the same path
parameters, they return identical results — they differ only in which service
implementation the populated request is handed to. -/
theorem c6_request_and_local_request_bind_identically :
    (∀ (μ : Type) (svc : GetProjectRequest → Except Status μ) (req : HttpRequest) (pp : List (String × String)),
      request_ProjectService_GetProject_0 svc req pp = local_request_ProjectService_GetProject_0 svc req pp) ∧
    (∀ (μ : Type) (svc : ListProjectsRequest → Except Status μ) (req : HttpRequest) (pp : List (String × String)),
      request_ProjectService_ListProjects_0 svc req pp = local_request_ProjectService_ListProjects_0 svc req pp) ∧
    (∀ (μ : Type) (svc : CreateProjectRequest → Except Status μ) (req : HttpRequest) (pp : List (String × String)),
      request_ProjectService_CreateProject_0 svc req pp = local_request_ProjectService_CreateProject_0 svc req pp) ∧
    (∀ (μ : Type) (svc : UpdateProjectRequest → Except Status μ) (req : HttpRequest) (pp : List (String × String)),
      request_ProjectService_UpdateProject_0 svc req pp = local_request_ProjectService_UpdateProject_0 svc req pp) ∧
    (∀ (μ : Type) (svc : DeleteProjectRequest → Except Status μ) (req : HttpRequest) (pp : List (String × String)),
      request_ProjectService_DeleteProject_0 svc req pp = local_request_ProjectService_DeleteProject_0 svc req pp) ∧
    (∀ (μ : Type) (svc : UndeleteProjectRequest → Except Status μ) (req : HttpRequest) (pp : List (String × String)),
      request_ProjectService_UndeleteProject_0 svc req pp = local_request_ProjectService_UndeleteProject_0 svc req pp) :=
  ⟨fun _ _ _ _ => rfl, fun _ _ _ _ => rfl, fun _ _ _ _ => rfl,
   fun _ _ _ _ => rfl, fun _ _ _ _ => rfl, fun _ _ _ _ => rfl⟩

/-- C7: Within a single request, each handler executes exactly the binding
steps its route declares, in the fixed order body decode → update-mask
derivation → path-variable binding → query-parameter binding, each step
observing the request state produced by the earlier ones: every handler equals
the Kleisli composition of its route's steps followed by the service call. -/
theorem c7_binding_steps_run_in_fixed_order :
    (∀ (μ : Type) (svc : UpdateProjectRequest → Except Status μ) (req : HttpRequest) (pp : List (String × String)),
      request_ProjectService_UpdateProject_0 svc req pp =
        ((((updateBodyDecodeStep req).bind (updateMaskDeriveStep req)).bind
            (updatePathBindStep pp)).bind (updateQueryBindStep req)).bind svc) ∧
    (∀ (μ : Type) (svc : CreateProjectRequest → Except Status μ) (req : HttpRequest) (pp : List (String × String)),
      request_ProjectService_CreateProject_0 svc req pp =
        ((createBodyDecodeStep req).bind (createQueryBindStep req)).bind svc) ∧
    (∀ (μ : Type) (svc : UndeleteProjectRequest → Except Status μ) (req : HttpRequest) (pp : List (String × String)),
      request_ProjectService_UndeleteProject_0 svc req pp =
        ((undeleteBodyDecodeStep req).bind (undeletePathBindStep pp)).bind svc) ∧
    (∀ (μ : Type) (svc : GetProjectRequest → Except Status μ) (req : HttpRequest) (pp : List (String × String)),
      request_ProjectService_GetProject_0 svc req pp = (getPathBindStep pp).bind svc) ∧
    (∀ (μ : Type) (svc : DeleteProjectRequest → Except Status μ) (req : HttpRequest) (pp : List (String × String)),
      request_ProjectService_DeleteProject_0 svc req pp = (deletePathBindStep pp).bind svc) ∧
    (∀ (μ : Type) (svc : ListProjectsRequest → Except Status μ) (req : HttpRequest) (pp : List (String × String)),
      request_ProjectService_ListProjects_0 svc req pp = (listQueryBindStep req).bind svc) :=
  ⟨fun _ svc req pp => lem_update_decomp svc req pp,
   fun _ svc req pp => lem_create_decomp svc req pp,
   fun _ svc req pp => lem_undelete_decomp svc req pp,
   fun _ svc req pp => lem_get_decomp svc req pp,
   fun _ svc req pp => lem_delete_decomp svc req pp,
   fun _ svc req pp => lem_list_decomp svc req pp⟩

theorem bindOkElim {α β : Type} {x : Except Status α} {f : α → Except Status β} {b : β}
    (h : x.bind f = .ok b) : ∃ a, x = .ok a ∧ f a = .ok b := by
  cases x with
  | error e => simp [Except.bind] at h
  | ok a => exact ⟨a, rfl, by simpa [Except.bind] using h⟩

theorem bindPureEq {α : Type} (x : Except Status α) : x.bind Except.ok = x := by
  cases x <;> rfl

/-- C2: For every route that decodes a request body (Create, Update,
Undelete), a body stream that hits end-of-stream with zero bytes read is not
an error: the typed request is built as if no body were supplied and the
service operation is still invoked; and for every request whose body decode
fails — a failing read, malformed bytes, a non-object JSON document, an
ill-typed declared field — the handler returns that failure as an
`InvalidArgument` status identically for every service, so the service is
never invoked.  In particular `POST /v1/projects/my-proj:undelete` with an
empty body yields the request `{name := "projects/my-proj"}` with no decode
error. -/
theorem c2_empty_body_is_not_an_error :
    (∀ (μ : Type) (svc : UndeleteProjectRequest → Except Status μ)
        (f : Except String (List (String × String))) (pp : List (String × String)) (v : String),
      lookupParam pp "name" = some v →
      request_ProjectService_UndeleteProject_0 svc { body := .empty, form := f } pp = svc { name := v }) ∧
    (∀ (μ : Type) (svc : CreateProjectRequest → Except Status μ)
        (form : List (String × String)) (pp : List (String × String)) (r : CreateProjectRequest),
      populateQueryParametersCreate filter_ProjectService_CreateProject_0
          { project := none, projectId := "" } form = .ok r →
      request_ProjectService_CreateProject_0 svc { body := .empty, form := .ok form } pp = svc r) ∧
    (∀ (μ : Type) (svc : UpdateProjectRequest → Except Status μ)
        (form : List (String × String)) (pp : List (String × String)) (v : String) (r : UpdateProjectRequest),
      lookupParam pp "project.name" = some v →
      populateQueryParametersUpdate filter_ProjectService_UpdateProject_0
          { project := some { name := v, title := "" }, updateMask := some { paths := [] } } form = .ok r →
      request_ProjectService_UpdateProject_0 svc { body := .empty, form := .ok form } pp = svc r) ∧
    (∀ (μ : Type) (svc : CreateProjectRequest → Except Status μ)
        (req : HttpRequest) (pp : List (String × String)) (e : String),
      decodeProjectBody req.body = .error e →
      request_ProjectService_CreateProject_0 svc req pp =
        .error { code := .invalidArgument, msg := e }) ∧
    (∀ (μ : Type) (svc : UpdateProjectRequest → Except Status μ)
        (req : HttpRequest) (pp : List (String × String)) (e : String),
      decodeProjectBody req.body = .error e →
      request_ProjectService_UpdateProject_0 svc req pp =
        .error { code := .invalidArgument, msg := e }) ∧
    (∀ (μ : Type) (svc : UndeleteProjectRequest → Except Status μ)
        (req : HttpRequest) (pp : List (String × String)) (e : String),
      decodeUndeleteBody req.body = .error e →
      request_ProjectService_UndeleteProject_0 svc req pp =
        .error { code := .invalidArgument, msg := e }) ∧
    request_ProjectService_UndeleteProject_0 (μ := UndeleteProjectRequest) Except.ok
        { body := .empty, form := .ok [] } [("name", "projects/my-proj")] =
      .ok { name := "projects/my-proj" } := by
  refine ⟨?_, ?_, ?_, ?_, ?_, ?_, ?_⟩
  · intro μ svc f pp v h
    simp [request_ProjectService_UndeleteProject_0, ioReaderFactory, decodeUndeleteBody,
      runtimeString, h]
  · intro μ svc form pp r h
    simp [request_ProjectService_CreateProject_0, ioReaderFactory, decodeProjectBody, h]
  · intro μ svc form pp v r hl hq
    simp [request_ProjectService_UpdateProject_0, ioReaderFactory, decodeProjectBody,
      deriveMaskStep, fieldMaskFromRequestBody, populateFieldProjectName, Option.getD, hl, hq]
  · intro μ svc req pp e hdec
    obtain ⟨body, form⟩ := req
    cases body with
    | empty => simp [decodeProjectBody] at hdec
    | json j => simp [request_ProjectService_CreateProject_0, ioReaderFactory, hdec]
    | malformed =>
      simp [decodeProjectBody] at hdec
      subst hdec
      simp [request_ProjectService_CreateProject_0, ioReaderFactory, decodeProjectBody]
    | readFail =>
      simp [decodeProjectBody] at hdec
      subst hdec
      simp [request_ProjectService_CreateProject_0, ioReaderFactory]
  · intro μ svc req pp e hdec
    obtain ⟨body, form⟩ := req
    cases body with
    | empty => simp [decodeProjectBody] at hdec
    | json j => simp [request_ProjectService_UpdateProject_0, ioReaderFactory, hdec]
    | malformed =>
      simp [decodeProjectBody] at hdec
      subst hdec
      simp [request_ProjectService_UpdateProject_0, ioReaderFactory, decodeProjectBody]
    | readFail =>
      simp [decodeProjectBody] at hdec
      subst hdec
      simp [request_ProjectService_UpdateProject_0, ioReaderFactory]
  · intro μ svc req pp e hdec
    obtain ⟨body, form⟩ := req
    cases body with
    | empty => simp [decodeUndeleteBody] at hdec
    | json j => simp [request_ProjectService_UndeleteProject_0, ioReaderFactory, hdec]
    | malformed =>
      simp [decodeUndeleteBody] at hdec
      subst hdec
      simp [request_ProjectService_UndeleteProject_0, ioReaderFactory, decodeUndeleteBody]
    | readFail =>
      simp [decodeUndeleteBody] at hdec
      subst hdec
      simp [request_ProjectService_UndeleteProject_0, ioReaderFactory]
  · rfl

/-- C3: In the Update handlers' mask step, an explicit update mask with at
least one path is kept unchanged and derivation is skipped; when the mask is
absent or has zero paths, the mask is derived from the raw request body.  In
particular an explicit mask `["title", "owner"]` is kept as-is regardless of
the body contents. -/
theorem c3_explicit_mask_used_as_is :
    (∀ (r : UpdateProjectRequest) (b : Body) (m : FieldMask),
      r.updateMask = some m → m.paths ≠ [] → deriveMaskStep r b = .ok r) ∧
    (∀ (r : UpdateProjectRequest) (b : Body),
      r.updateMask = none ∨ r.updateMask = some { paths := [] } →
      deriveMaskStep r b =
        match fieldMaskFromRequestBody b with
        | .error e => .error { code := .invalidArgument, msg := e }
        | .ok fm => .ok { r with updateMask := some fm }) ∧
    (∀ (r : UpdateProjectRequest) (b : Body),
      r.updateMask = some { paths := ["title", "owner"] } → deriveMaskStep r b = .ok r) := by
  refine ⟨?_, ?_, ?_⟩
  · intro r b m hm hne
    unfold deriveMaskStep
    rw [hm]
    cases hp : m.paths with
    | nil => exact absurd hp hne
    | cons a l => simp [hp]
  · intro r b h
    rcases h with h | h <;>
      (unfold deriveMaskStep; rw [h]; simp)
  · intro r b h
    unfold deriveMaskStep
    rw [h]
    simp

/-- Witness for C3: an explicit one-path mask and the explicit mask
`["title", "owner"]` are kept unchanged; an absent mask is replaced by the
derived (here empty) mask. -/
theorem c3_witness :
    deriveMaskStep { project := none, updateMask := some { paths := ["title"] } }
        (.json (.obj [("name", .str "x")]))
      = .ok { project := none, updateMask := some { paths := ["title"] } } ∧
    deriveMaskStep { project := none, updateMask := some { paths := ["title", "owner"] } }
        (.json (.obj [("title", .str "zzz")]))
      = .ok { project := none, updateMask := some { paths := ["title", "owner"] } } ∧
    deriveMaskStep { project := none, updateMask := none } .empty
      = .ok { project := none, updateMask := some { paths := [] } } :=
  ⟨c3_explicit_mask_used_as_is.1 _ _ { paths := ["title"] } rfl (by decide),
   c3_explicit_mask_used_as_is.2.2 _ _ rfl,
   c3_explicit_mask_used_as_is.2.1 _ .empty (Or.inl rfl)⟩

/-- Witness for C2: the empty-body conclusions, an ill-typed declared field
(`{"name": 5}`), a non-object JSON body, and a failing body read, each at a
concrete input. -/
theorem c2_witness :
    request_ProjectService_UndeleteProject_0 (μ := UndeleteProjectRequest) Except.ok
        { body := .empty, form := .ok [] } [("name", "x")] = .ok { name := "x" } ∧
    request_ProjectService_CreateProject_0 (μ := CreateProjectRequest) Except.ok
        { body := .empty, form := .ok [] } [] = .ok { project := none, projectId := "" } ∧
    request_ProjectService_UpdateProject_0 (μ := UpdateProjectRequest) Except.ok
        { body := .empty, form := .ok [] } [("project.name", "p")] =
      .ok { project := some { name := "p", title := "" }, updateMask := some { paths := [] } } ∧
    request_ProjectService_CreateProject_0 (μ := CreateProjectRequest) Except.ok
        { body := .json (.obj [("name", .num 5)]), form := .ok [] } [] =
      .error { code := .invalidArgument, msg := "invalid value for field name" } ∧
    request_ProjectService_UpdateProject_0 (μ := UpdateProjectRequest) Except.ok
        { body := .json (.str "x"), form := .ok [] } [("project.name", "p")] =
      .error { code := .invalidArgument, msg := "cannot unmarshal body into message" } ∧
    request_ProjectService_UndeleteProject_0 (μ := UndeleteProjectRequest) Except.ok
        { body := .readFail, form := .ok [] } [] =
      .error { code := .invalidArgument, msg := "failed to read request body" } :=
  ⟨c2_empty_body_is_not_an_error.1 UndeleteProjectRequest Except.ok (.ok []) [("name", "x")] "x" rfl,
   c2_empty_body_is_not_an_error.2.1 CreateProjectRequest Except.ok [] []
     { project := none, projectId := "" } rfl,
   c2_empty_body_is_not_an_error.2.2.1 UpdateProjectRequest Except.ok [] [("project.name", "p")] "p"
     { project := some { name := "p", title := "" }, updateMask := some { paths := [] } } rfl rfl,
   c2_empty_body_is_not_an_error.2.2.2.1 CreateProjectRequest Except.ok
     { body := .json (.obj [("name", .num 5)]), form := .ok [] } []
     "invalid value for field name" rfl,
   c2_empty_body_is_not_an_error.2.2.2.2.1 UpdateProjectRequest Except.ok
     { body := .json (.str "x"), form := .ok [] } [("project.name", "p")]
     "cannot unmarshal body into message" rfl,
   c2_empty_body_is_not_an_error.2.2.2.2.2.1 UndeleteProjectRequest Except.ok
     { body := .readFail, form := .ok [] } []
     "failed to read request body" rfl⟩

theorem lem_populateQueryParameterUpdateReq_project {r r' : UpdateProjectRequest} {k v : String}
    (h : populateQueryParameterUpdateReq filter_ProjectService_UpdateProject_0 r k v = .ok r') :
    r'.project = r.project := by
  unfold populateQueryParameterUpdateReq at h
  by_cases hcov : coveredByFilter filter_ProjectService_UpdateProject_0 (splitField '.' k) = true
  · rw [if_pos hcov] at h
    cases h
    rfl
  · rw [if_neg hcov] at h
    split at h <;>
      first
        | (cases h; rfl)
        | (rename_i heq; rw [heq] at hcov; exact absurd (by decide) hcov)

theorem lem_populateQueryParametersUpdate_project :
    ∀ (form : List (String × String)) (r r' : UpdateProjectRequest),
      populateQueryParametersUpdate filter_ProjectService_UpdateProject_0 r form = .ok r' →
      r'.project = r.project := by
  intro form
  induction form with
  | nil =>
    intro r r' h
    cases h
    rfl
  | cons kv rest ih =>
    intro r r' h
    rcases kv with ⟨k, v⟩
    unfold populateQueryParametersUpdate at h
    cases hstep : populateQueryParameterUpdateReq filter_ProjectService_UpdateProject_0 r k v with
    | error e => rw [hstep] at h; cases h
    | ok r1 =>
      rw [hstep] at h
      rw [ih r1 r' h, lem_populateQueryParameterUpdateReq_project hstep]

theorem lem_updateQueryBindStep_project {req : HttpRequest} {x y : UpdateProjectRequest}
    (h : updateQueryBindStep req x = .ok y) : y.project = x.project := by
  unfold updateQueryBindStep at h
  split at h
  · simp at h
  · split at h
    · simp at h
    · rename_i r2 hq
      cases h
      exact lem_populateQueryParametersUpdate_project _ x y hq

/-- C10: because path-variable binding runs after body decoding, the path
capture wins over the body for the same field: every successfully bound
Undelete request carries the path-captured `name`, and every successfully
bound Update request carries the path-captured `project.name`, regardless of
what the JSON body supplied for those fields. -/
theorem c10_path_capture_wins_over_body :
    (∀ (req : HttpRequest) (pp : List (String × String)) (v : String) (r : UndeleteProjectRequest),
      lookupParam pp "name" = some v →
      request_ProjectService_UndeleteProject_0 Except.ok req pp = .ok r →
      r.name = v) ∧
    (∀ (req : HttpRequest) (pp : List (String × String)) (v : String) (r : UpdateProjectRequest) (pr : Project),
      lookupParam pp "project.name" = some v →
      request_ProjectService_UpdateProject_0 Except.ok req pp = .ok r →
      r.project = some pr → pr.name = v) := by
  constructor
  · intro req pp v r hl hr
    rw [lem_undelete_decomp, bindPureEq] at hr
    rcases bindOkElim hr with ⟨a, _, hpath⟩
    unfold undeletePathBindStep at hpath
    rw [hl] at hpath
    cases hpath
    rfl
  · intro req pp v r pr hl hr hpr
    rw [lem_update_decomp, bindPureEq] at hr
    rcases bindOkElim hr with ⟨a, ha, hquery⟩
    rcases bindOkElim ha with ⟨b, _, hpath⟩
    unfold updatePathBindStep at hpath
    rw [hl] at hpath
    unfold populateFieldProjectName at hpath
    cases hpath
    have hfr := lem_updateQueryBindStep_project hquery
    rw [hpr] at hfr
    simp only [UpdateProjectRequest.mk.injEq] at hfr ⊢
    simp at hfr
    rw [hfr]

/-- Witness for C10: with a body that supplies a different `name`, the bound
requests carry the path-captured values. -/
theorem c10_witness :
    ({ name := "projects/good" } : UndeleteProjectRequest).name = "projects/good" ∧
    ({ name := "projects/good", title := "" } : Project).name = "projects/good" :=
  ⟨c10_path_capture_wins_over_body.1
      { body := .json (.obj [("name", .str "projects/evil")]), form := .ok [] }
      [("name", "projects/good")] "projects/good" { name := "projects/good" } rfl rfl,
   c10_path_capture_wins_over_body.2
      { body := .json (.obj [("name", .str "projects/evil")]), form := .ok [] }
      [("project.name", "projects/good")] "projects/good"
      { project := some { name := "projects/good", title := "" }, updateMask := some { paths := ["name"] } }
      { name := "projects/good", title := "" } rfl rfl rfl⟩

/-- Counterexample to C1: for `PATCH /v1/projects/my-proj` with JSON body
`{"project":{"title":"New"}}` and no explicit mask, the bound request is NOT
the claimed one.  The Update route decodes the body directly onto the embedded
`project` field (`Decode(&protoReq.Project)`, source line 186), so the wrapper
key `project` is an unknown key of the `Project` sub-message: the decoded
title stays empty and the derived mask is empty, not `["title"]`. -/
theorem c1_counterexample :
    request_ProjectService_UpdateProject_0 (μ := UpdateProjectRequest) Except.ok
        { body := .json (.obj [("project", .obj [("title", .str "New")])]), form := .ok [] }
        [("project.name", "projects/my-proj")] =
      .ok { project := some { name := "projects/my-proj", title := "" },
            updateMask := some { paths := [] } } ∧
    ¬ request_ProjectService_UpdateProject_0 (μ := UpdateProjectRequest) Except.ok
        { body := .json (.obj [("project", .obj [("title", .str "New")])]), form := .ok [] }
        [("project.name", "projects/my-proj")] =
      .ok { project := some { name := "projects/my-proj", title := "New" },
            updateMask := some { paths := ["title"] } } :=
  ⟨rfl, by decide⟩

/-- C1 (amended): for a PATCH request to `/v1/projects/my-proj` whose JSON
body is `{"title":"New"}` — the body decodes directly onto the embedded
project resource — and which carries no explicit update mask, the request
handed to the UpdateProject service operation has `project.name` equal to
`"projects/my-proj"`, `project.title` equal to `"New"`, and `updateMask`
equal to exactly `["title"]`. -/
theorem c1_amended_update_scenario :
    request_ProjectService_UpdateProject_0 (μ := UpdateProjectRequest) Except.ok
        { body := .json (.obj [("title", .str "New")]), form := .ok [] }
        [("project.name", "projects/my-proj")] =
      .ok { project := some { name := "projects/my-proj", title := "New" },
            updateMask := some { paths := ["title"] } } := rfl

theorem lem_mem_dedupKeepFirstAux (k : String) :
    ∀ (l seen : List String), k ∈ dedupKeepFirstAux l seen ↔ k ∈ l ∧ k ∉ seen := by
  intro l
  induction l with
  | nil => intro seen; simp [dedupKeepFirstAux]
  | cons a rest ih =>
    intro seen
    by_cases ha : a ∈ seen
    · rw [dedupKeepFirstAux, if_pos ha, ih]
      constructor
      · rintro ⟨h1, h2⟩
        exact ⟨List.mem_cons_of_mem _ h1, h2⟩
      · rintro ⟨h1, h2⟩
        rcases List.mem_cons.mp h1 with rfl | h1
        · exact absurd ha h2
        · exact ⟨h1, h2⟩
    · rw [dedupKeepFirstAux, if_neg ha]
      constructor
      · intro hk
        rcases List.mem_cons.mp hk with rfl | hk
        · exact ⟨List.mem_cons_self _ _, ha⟩
        · rcases (ih (a :: seen)).mp hk with ⟨h1, h2⟩
          exact ⟨List.mem_cons_of_mem _ h1, fun hs => h2 (List.mem_cons_of_mem _ hs)⟩
      · rintro ⟨h1, h2⟩
        rcases List.mem_cons.mp h1 with rfl | h1
        · exact List.mem_cons_self _ _
        · by_cases hka : k = a
          · subst hka
            exact List.mem_cons_self _ _
          · exact List.mem_cons_of_mem _
              ((ih (a :: seen)).mpr ⟨h1, fun hs => (List.mem_cons.mp hs).elim hka h2⟩)

theorem lem_nodup_dedupKeepFirstAux :
    ∀ (l seen : List String), (dedupKeepFirstAux l seen).Nodup := by
  intro l
  induction l with
  | nil => intro seen; simp [dedupKeepFirstAux]
  | cons a rest ih =>
    intro seen
    rw [dedupKeepFirstAux]
    by_cases ha : a ∈ seen
    · rw [if_pos ha]
      exact ih seen
    · rw [if_neg ha]
      refine List.nodup_cons.mpr ⟨?_, ih _⟩
      intro hmem
      rcases (lem_mem_dedupKeepFirstAux a rest (a :: seen)).mp hmem with ⟨_, h2⟩
      exact h2 (List.mem_cons_self _ _)

theorem lem_sublist_dedupKeepFirstAux :
    ∀ (l seen : List String), (dedupKeepFirstAux l seen).Sublist l := by
  intro l
  induction l with
  | nil => intro seen; simp [dedupKeepFirstAux]
  | cons a rest ih =>
    intro seen
    rw [dedupKeepFirstAux]
    by_cases ha : a ∈ seen
    · rw [if_pos ha]
      exact List.Sublist.cons a (ih seen)
    · rw [if_neg ha]
      exact List.Sublist.cons₂ a (ih (a :: seen))

/-- C4: when the mask is derived, for every raw JSON body object the derived
mask has exactly the top-level keys of the body that are declared fields of
the target sub-message — one entry per such key (membership), without
duplicates (`Nodup`), in JSON-key order (a sublist of the keys in body
order) — unknown keys are ignored and derivation from a JSON body never
fails; in particular the raw body `{"title":"x"}` derives exactly
`["title"]`. -/
theorem c4_derived_mask_is_declared_top_level_keys :
    (∀ fields : List (String × Json),
      (∀ k, k ∈ (fieldMaskFromJsonBody (.obj fields)).paths ↔
        (k ∈ fields.map Prod.fst ∧ k ∈ projectFieldKeys)) ∧
      (fieldMaskFromJsonBody (.obj fields)).paths.Nodup ∧
      (fieldMaskFromJsonBody (.obj fields)).paths.Sublist
        ((fields.map Prod.fst).filter (fun k => decide (k ∈ projectFieldKeys))) ∧
      fieldMaskFromRequestBody (.json (.obj fields)) = .ok (fieldMaskFromJsonBody (.obj fields))) ∧
    (fieldMaskFromJsonBody (.obj [("title", .str "x")])).paths = ["title"] := by
  constructor
  · intro fields
    refine ⟨?_, ?_, ?_, rfl⟩
    · intro k
      show k ∈ dedupKeepFirstAux ((fields.map Prod.fst).filter (fun k => decide (k ∈ projectFieldKeys))) [] ↔ _
      rw [lem_mem_dedupKeepFirstAux]
      simp [List.mem_filter]
    · exact lem_nodup_dedupKeepFirstAux _ _
    · exact lem_sublist_dedupKeepFirstAux _ _
  · rfl

theorem lem_populateQueryParameterUpdateReq_total
    (r : UpdateProjectRequest) (k v : String) :
    ∃ r', populateQueryParameterUpdateReq filter_ProjectService_UpdateProject_0 r k v = .ok r' := by
  unfold populateQueryParameterUpdateReq
  by_cases hcov : coveredByFilter filter_ProjectService_UpdateProject_0 (splitField '.' k) = true
  · rw [if_pos hcov]
    exact ⟨r, rfl⟩
  · rw [if_neg hcov]
    split <;> exact ⟨_, rfl⟩

theorem lem_populateQueryParametersUpdate_total :
    ∀ (form : List (String × String)) (r : UpdateProjectRequest),
      ∃ r', populateQueryParametersUpdate filter_ProjectService_UpdateProject_0 r form = .ok r' := by
  intro form
  induction form with
  | nil => intro r; exact ⟨r, rfl⟩
  | cons kv rest ih =>
    intro r
    rcases kv with ⟨k, v⟩
    rcases lem_populateQueryParameterUpdateReq_total r k v with ⟨r1, hstep⟩
    rcases ih r1 with ⟨r', hrest⟩
    refine ⟨r', ?_⟩
    unfold populateQueryParametersUpdate
    rw [hstep]
    exact hrest

theorem lem_populateQueryParameterCreateReq_project {r r' : CreateProjectRequest} {k v : String}
    (h : populateQueryParameterCreateReq filter_ProjectService_CreateProject_0 r k v = .ok r') :
    r'.project = r.project := by
  unfold populateQueryParameterCreateReq at h
  by_cases hcov : coveredByFilter filter_ProjectService_CreateProject_0 (splitField '.' k) = true
  · rw [if_pos hcov] at h
    cases h
    rfl
  · rw [if_neg hcov] at h
    split at h <;>
      first
        | (cases h; rfl)
        | (rename_i heq; rw [heq] at hcov; exact absurd (by decide) hcov)

theorem lem_populateQueryParameterCreateReq_total
    (r : CreateProjectRequest) (k v : String) :
    ∃ r', populateQueryParameterCreateReq filter_ProjectService_CreateProject_0 r k v = .ok r' := by
  unfold populateQueryParameterCreateReq
  by_cases hcov : coveredByFilter filter_ProjectService_CreateProject_0 (splitField '.' k) = true
  · rw [if_pos hcov]
    exact ⟨r, rfl⟩
  · rw [if_neg hcov]
    split <;> exact ⟨_, rfl⟩

theorem lem_populateQueryParametersCreate_project_total :
    ∀ (form : List (String × String)) (r : CreateProjectRequest),
      ∃ r', populateQueryParametersCreate filter_ProjectService_CreateProject_0 r form = .ok r' ∧
        r'.project = r.project := by
  intro form
  induction form with
  | nil => intro r; exact ⟨r, rfl, rfl⟩
  | cons kv rest ih =>
    intro r
    rcases kv with ⟨k, v⟩
    rcases lem_populateQueryParameterCreateReq_total r k v with ⟨r1, hstep⟩
    rcases ih r1 with ⟨r', hrest, hproj⟩
    refine ⟨r', ?_, ?_⟩
    · unfold populateQueryParametersCreate
      rw [hstep]
      exact hrest
    · rw [hproj, lem_populateQueryParameterCreateReq_project hstep]

/-- C8: query parameters can never override fields already bound from the
path or the body — the route's declared filter excludes them: Update query
binding always succeeds and leaves the `project` field (bound from body and
path) unchanged; Create query binding always succeeds and leaves `project`
(bound from body) unchanged; and for all three routes with query binding, a
query parameter naming an unknown field path is ignored rather than causing
an error, whatever the filter. -/
theorem c8_query_parameters_cannot_override_path_or_body_fields :
    (∀ (r : UpdateProjectRequest) (form : List (String × String)),
      ∃ r', populateQueryParametersUpdate filter_ProjectService_UpdateProject_0 r form = .ok r' ∧
        r'.project = r.project) ∧
    (∀ (r : CreateProjectRequest) (form : List (String × String)),
      ∃ r', populateQueryParametersCreate filter_ProjectService_CreateProject_0 r form = .ok r' ∧
        r'.project = r.project) ∧
    (∀ (filter : List (List String)) (r : UpdateProjectRequest) (k v : String),
      splitField '.' k ∉
        ([["updateMask"], ["update_mask"], ["project", "name"], ["project", "title"]] : List (List String)) →
      populateQueryParameterUpdateReq filter r k v = .ok r) ∧
    (∀ (filter : List (List String)) (r : CreateProjectRequest) (k v : String),
      splitField '.' k ∉
        ([["projectId"], ["project_id"], ["project", "name"], ["project", "title"]] : List (List String)) →
      populateQueryParameterCreateReq filter r k v = .ok r) ∧
    (∀ (filter : List (List String)) (r : ListProjectsRequest) (k v : String),
      splitField '.' k ∉
        ([["pageSize"], ["page_size"], ["pageToken"], ["page_token"],
          ["showDeleted"], ["show_deleted"]] : List (List String)) →
      populateQueryParameterListReq filter r k v = .ok r) := by
  refine ⟨?_, ?_, ?_, ?_, ?_⟩
  · intro r form
    rcases lem_populateQueryParametersUpdate_total form r with ⟨r', h⟩
    exact ⟨r', h, lem_populateQueryParametersUpdate_project form r r' h⟩
  · intro r form
    exact lem_populateQueryParametersCreate_project_total form r
  · intro filter r k v h
    unfold populateQueryParameterUpdateReq
    by_cases hcov : coveredByFilter filter (splitField '.' k) = true
    · rw [if_pos hcov]
    · rw [if_neg hcov]
      split <;>
        first
          | rfl
          | (rename_i heq; exact absurd (by rw [heq]; decide) h)
  · intro filter r k v h
    unfold populateQueryParameterCreateReq
    by_cases hcov : coveredByFilter filter (splitField '.' k) = true
    · rw [if_pos hcov]
    · rw [if_neg hcov]
      split <;>
        first
          | rfl
          | (rename_i heq; exact absurd (by rw [heq]; decide) h)
  · intro filter r k v h
    unfold populateQueryParameterListReq
    by_cases hcov : coveredByFilter filter (splitField '.' k) = true
    · rw [if_pos hcov]
    · rw [if_neg hcov]
      split <;>
        first
          | rfl
          | (rename_i heq; exact absurd (by rw [heq]; decide) h)

/-- Witness for C8: an unknown query parameter `foo` is ignored by the query
binder of each of the three routes with query binding. -/
theorem c8_witness :
    populateQueryParameterUpdateReq filter_ProjectService_UpdateProject_0
        { project := none, updateMask := none } "foo" "bar" =
      .ok { project := none, updateMask := none } ∧
    populateQueryParameterCreateReq filter_ProjectService_CreateProject_0
        { project := none, projectId := "" } "foo" "bar" =
      .ok { project := none, projectId := "" } ∧
    populateQueryParameterListReq filter_ProjectService_ListProjects_0
        { pageSize := 0, pageToken := "", showDeleted := false } "foo" "bar" =
      .ok { pageSize := 0, pageToken := "", showDeleted := false } :=
  ⟨c8_query_parameters_cannot_override_path_or_body_fields.2.2.1
      filter_ProjectService_UpdateProject_0 _ "foo" "bar" (by decide),
   c8_query_parameters_cannot_override_path_or_body_fields.2.2.2.1
      filter_ProjectService_CreateProject_0 _ "foo" "bar" (by decide),
   c8_query_parameters_cannot_override_path_or_body_fields.2.2.2.2
      filter_ProjectService_ListProjects_0 _ "foo" "bar" (by decide)⟩

theorem lem_match_projects_capture (f : String) (vb : Option String) :
    ∀ (segs : List String) (verb : Option String) (caps : List (String × String)),
      matchPattern { comps := [.lit "v1", .capture f [.litSeg "projects", .star]], verb := vb }
          segs verb = some caps ↔
        ∃ a b c, segs = [a, b, c] ∧ percentDecode a = "v1" ∧ percentDecode b = "projects" ∧
          verb = vb ∧ caps = [(f, "projects/" ++ percentDecode c)] := by
  intro segs verb caps
  unfold matchPattern
  by_cases hv : vb = verb
  · rw [if_pos hv]
    cases segs with
    | nil => simp [matchComps]
    | cons s1 t1 =>
      cases t1 with
      | nil =>
        by_cases h1 : percentDecode s1 = "v1" <;>
          simp [matchComps, capConsume, h1]
      | cons s2 t2 =>
        cases t2 with
        | nil =>
          by_cases h1 : percentDecode s1 = "v1" <;>
            by_cases h2 : percentDecode s2 = "projects" <;>
              simp [matchComps, capConsume, h1, h2]
        | cons s3 t3 =>
          cases t3 with
          | nil =>
            by_cases h1 : percentDecode s1 = "v1"
            · by_cases h2 : percentDecode s2 = "projects"
              · simp only [matchComps, capConsume, joinSegs, h1, h2, hv.symm, if_pos,
                  show ("projects" ++ "/" : String) = "projects/" from rfl, if_true]
                simp [h1, h2]
                constructor
                · intro h
                  exact ⟨s1, s2, s3, ⟨rfl, rfl, rfl⟩, h1, h2, h.symm⟩
                · rintro ⟨a, b, c, ⟨rfl, rfl, rfl⟩, -, -, hc⟩
                  exact hc.symm
              · simp [matchComps, capConsume, h1, h2]
            · simp [matchComps, capConsume, h1]
          | cons s4 t4 =>
            by_cases h1 : percentDecode s1 = "v1" <;>
              by_cases h2 : percentDecode s2 = "projects" <;>
                simp [matchComps, capConsume, h1, h2]
  · rw [if_neg hv]
    constructor
    · intro h
      simp at h
    · rintro ⟨a, b, c, rfl, _, _, hverb, _⟩
      exact absurd hverb.symm hv

theorem lem_match_two_literals (vb : Option String) :
    ∀ (segs : List String) (verb : Option String) (caps : List (String × String)),
      matchPattern { comps := [.lit "v1", .lit "projects"], verb := vb } segs verb = some caps ↔
        ∃ a b, segs = [a, b] ∧ percentDecode a = "v1" ∧ percentDecode b = "projects" ∧
          verb = vb ∧ caps = [] := by
  intro segs verb caps
  unfold matchPattern
  by_cases hv : vb = verb
  · rw [if_pos hv]
    cases segs with
    | nil => simp [matchComps]
    | cons s1 t1 =>
      cases t1 with
      | nil =>
        by_cases h1 : percentDecode s1 = "v1" <;>
          simp [matchComps, h1]
      | cons s2 t2 =>
        cases t2 with
        | nil =>
          by_cases h1 : percentDecode s1 = "v1"
          · by_cases h2 : percentDecode s2 = "projects"
            · simp [matchComps, h1, h2, hv.symm]
              constructor
              · intro h
                exact ⟨s1, s2, ⟨rfl, rfl⟩, h1, h2, h⟩
              · rintro ⟨a, b, ⟨rfl, rfl⟩, -, -, hc⟩
                exact hc
            · simp [matchComps, h1, h2]
          · simp [matchComps, h1]
        | cons s3 t3 =>
          by_cases h1 : percentDecode s1 = "v1" <;>
            by_cases h2 : percentDecode s2 = "projects" <;>
              simp [matchComps, h1, h2]
  · rw [if_neg hv]
    constructor
    · intro h
      simp at h
    · rintro ⟨a, b, rfl, _, _, hverb, _⟩
      exact absurd hverb.symm hv

/-- C9: for each of the six registered route patterns and every decoded
request path (its raw segments plus optional verb), matching succeeds exactly
when the path's segment structure matches the pattern's
literal/capture/verb structure, and the captured value is the corresponding
raw segment(s) — joined with `/` — after exactly one percent-decoding. -/
theorem c9_pattern_match_characterization :
    (∀ segs verb caps, matchPattern pattern_ProjectService_GetProject_0 segs verb = some caps ↔
      ∃ a b c, segs = [a, b, c] ∧ percentDecode a = "v1" ∧ percentDecode b = "projects" ∧
        verb = none ∧ caps = [("name", "projects/" ++ percentDecode c)]) ∧
    (∀ segs verb caps, matchPattern pattern_ProjectService_ListProjects_0 segs verb = some caps ↔
      ∃ a b, segs = [a, b] ∧ percentDecode a = "v1" ∧ percentDecode b = "projects" ∧
        verb = none ∧ caps = []) ∧
    (∀ segs verb caps, matchPattern pattern_ProjectService_CreateProject_0 segs verb = some caps ↔
      ∃ a b, segs = [a, b] ∧ percentDecode a = "v1" ∧ percentDecode b = "projects" ∧
        verb = none ∧ caps = []) ∧
    (∀ segs verb caps, matchPattern pattern_ProjectService_UpdateProject_0 segs verb = some caps ↔
      ∃ a b c, segs = [a, b, c] ∧ percentDecode a = "v1" ∧ percentDecode b = "projects" ∧
        verb = none ∧ caps = [("project.name", "projects/" ++ percentDecode c)]) ∧
    (∀ segs verb caps, matchPattern pattern_ProjectService_DeleteProject_0 segs verb = some caps ↔
      ∃ a b c, segs = [a, b, c] ∧ percentDecode a = "v1" ∧ percentDecode b = "projects" ∧
        verb = none ∧ caps = [("name", "projects/" ++ percentDecode c)]) ∧
    (∀ segs verb caps, matchPattern pattern_ProjectService_UndeleteProject_0 segs verb = some caps ↔
      ∃ a b c, segs = [a, b, c] ∧ percentDecode a = "v1" ∧ percentDecode b = "projects" ∧
        verb = some "undelete" ∧ caps = [("name", "projects/" ++ percentDecode c)]) :=
  ⟨lem_match_projects_capture "name" none,
   lem_match_two_literals none,
   lem_match_two_literals none,
   lem_match_projects_capture "project.name" none,
   lem_match_projects_capture "name" none,
   lem_match_projects_capture "name" (some "undelete")⟩

end BBGateway
